import Mathlib

/-!
Verification development for the shooting-star Gemini server (src/main.rs).

The file shallowly embeds the request validation, authorization and resolution
pipeline of the server: `Status`, `ResponseHeader`, `Response` and their
rendering, `parse_request`, `process_request`, and the per-connection handler
`process_tls_stream`.

External collaborators are modelled as parameters, exactly at the boundaries
the code uses them:
- the url crate is a parameter `parseUrl : String → Option Url`, producing the
  fields of a parsed `url::Url` that `process_request` consumes
  (`scheme()`, `cannot_be_a_base()`, `port()`, `host_str()`, `path()`);
- the filesystem is a structure `FS` with `pathExists` (the code calls
  `Path::exists`, which is true for directories as well as files) and
  `readToString` (the code calls `fs::read_to_string`, which fails on
  directories, unreadable files and non-UTF-8 contents, modelled as `none`);
- the single `stream.read` into the 1026-byte buffer is modelled as delivering
  the first `min (length received) 1026` bytes of the data the client sent.

Machine integers: the Rust `u16` port is a `Nat` (no arithmetic is performed
on it, only equality), `u8` bytes are `UInt8`.
-/

namespace ShootingStar

/-- Model of `enum Status` (main.rs 11-18). The `PermanentFailure` variant is
commented out in the source and therefore absent here. -/
inductive Status where
  | Success
  | TemporaryFailure
  | ProxyRequestRefused
  | NotFound
  | BadRequest
deriving DecidableEq

/-- Model of `Status::code` (main.rs 21-30). -/
def Status.code : Status → Nat
  | .Success => 20
  | .TemporaryFailure => 40
  | .ProxyRequestRefused => 53
  | .NotFound => 51
  | .BadRequest => 59

/-- Model of `struct ResponseHeader` (main.rs 33-36). -/
structure ResponseHeader where
  status : Status
  meta : String
deriving DecidableEq

/-- Model of `ResponseHeader::new` (main.rs 39-44). -/
def ResponseHeader.new (status : Status) (meta : String) : ResponseHeader :=
  { status := status, meta := meta }

/-- Model of `ResponseHeader::render` (main.rs 46-48):
the wire form of a header is the decimal status code, a space, the meta
text and CRLF. -/
def ResponseHeader.render (h : ResponseHeader) : String :=
  toString h.status.code ++ " " ++ h.meta ++ "\r\n"

/-- Model of `struct Response` (main.rs 51-54). -/
structure Response where
  header : ResponseHeader
  body : Option String
deriving DecidableEq

/-- Model of `Response::render` (main.rs 55-68): a Success response is the
header followed by the body (or nothing when the body is absent); every
other status renders the header alone. -/
def Response.render (r : Response) : String :=
  match r.header.status with
  | .Success =>
    r.header.render ++ (match r.body with
      | some s => s
      | none => "")
  | _ => r.header.render

/-- The fields of a parsed `url::Url` that `process_request` consumes:
`scheme()`, `cannot_be_a_base()`, `port()`, `host_str()` and `path()`. -/
structure Url where
  scheme : String
  cannotBeABase : Bool
  port : Option Nat
  hostStr : Option String
  path : String
deriving DecidableEq

/-- Model of `struct Config` (main.rs 214-222); the certificate and key paths
play no role in request processing and are omitted. -/
structure Config where
  host : String
  port : Nat
  root : String
  allowed_hosts : List String
deriving DecidableEq

/-- The filesystem collaborator: `pathExists` models `Path::exists` (true for
directories as well as regular files) and `readToString` models
`fs::read_to_string` (`none` when the read fails, e.g. for a directory, a
permission error or non-UTF-8 contents). -/
structure FS where
  pathExists : String → Bool
  readToString : String → Option String

/-- Model of Rust `Option::is_some_and`. -/
def isSomeAnd {α : Type} (p : α → Bool) : Option α → Bool
  | some a => p a
  | none => false

/-- Model of Rust `str::starts_with(c: char)`. -/
def startsWithChar (c : Char) (s : String) : Bool :=
  match s.data with
  | x :: _ => x == c
  | [] => false

/-- Model of the test `PathBuf::push` performs on its current last byte:
whether the string ends in the path separator. -/
def endsWithChar (c : Char) (s : String) : Bool :=
  match s.data.getLast? with
  | some x => x == c
  | none => false

/-- Byte length of a UTF-8 encoded character list; `utf8Len` below models
Rust `str::len` (the UTF-8 byte length). -/
def utf8LenList : List Char → Nat
  | [] => 0
  | c :: rest => c.utf8Size + utf8LenList rest

/-- Model of Rust `str::len`: the UTF-8 byte length of the string. -/
def utf8Len (s : String) : Nat :=
  utf8LenList s.data

/-- Model of `str::trim_start_matches('/')` on the character list: every
leading separator is removed. -/
def trimSlashes : List Char → List Char
  | [] => []
  | c :: rest => if c == '/' then trimSlashes rest else c :: rest

/-- Model of `str::trim_start_matches('/')` (main.rs 121). -/
def trimStartMatchesSlash (s : String) : String :=
  String.mk (trimSlashes s.data)

/-- Model of `PathBuf::push` on Unix (main.rs 121): pushing an absolute
component replaces the whole path; otherwise a separator is inserted when the
current path is nonempty and does not already end in one. -/
def pathPush (root comp : String) : String :=
  if startsWithChar '/' comp then comp
  else if root == "" || endsWithChar '/' root then root ++ comp
  else root ++ "/" ++ comp

/-- The candidate filesystem location `process_request` computes
(main.rs 114-121): the path of "/" or "" becomes "/index.gmi", then the path
with all leading separators trimmed is pushed onto the document root. -/
def resolvePath (config : Config) (rawPath : String) : String :=
  pathPush config.root
    (trimStartMatchesSlash (if rawPath == "/" || rawPath == "" then "/index.gmi" else rawPath))

/-- Model of `parse_request` (main.rs 70-81). `Url::parse` is the external url
crate, passed in as `parseUrl`. -/
def parse_request (parseUrl : String → Option Url) (request_line : String) : Except String Url :=
  if startsWithChar '\uFEFF' request_line then
    Except.error "The request MUST NOT begin with a U+FEFF byte order mark."
  else if utf8Len request_line > 1024 then
    Except.error "URL is too long. Maximum length is 1024 bytes."
  else
    match parseUrl request_line with
    | some u => Except.ok u
    | none => Except.error "Error parsing the url"

/-- Model of `process_request` (main.rs 83-147). -/
def process_request (parseUrl : String → Option Url) (request : String)
    (config : Config) (fs : FS) : Response :=
  match parse_request parseUrl request with
  | .ok url =>
    if url.scheme != "gemini" || url.cannotBeABase
        || isSomeAnd (fun p => p != config.port) url.port then
      { header := ResponseHeader.new .ProxyRequestRefused "Not a gemini request.", body := none }
    else if isSomeAnd (fun h => !(config.allowed_hosts.contains h)) url.hostStr then
      { header := ResponseHeader.new .ProxyRequestRefused "This host is not served here.",
        body := none }
    else
      if !(fs.pathExists (resolvePath config url.path)) then
        { header := ResponseHeader.new .NotFound "Not Found", body := none }
      else
        match fs.readToString (resolvePath config url.path) with
        | some body => { header := ResponseHeader.new .Success "text/gemini", body := some body }
        | none =>
          { header := ResponseHeader.new .TemporaryFailure "Internal Server Error", body := none }
  | .error err => { header := ResponseHeader.new .BadRequest err, body := none }

/-- Decode one continuation byte of a UTF-8 sequence: the byte must lie in
[lo, hi] and contributes its low six bits to the code point. -/
def contRange (lo hi : UInt8) (cp : Nat) (l : List UInt8) : Option (Nat × List UInt8) :=
  match l with
  | b :: rest => if lo ≤ b && b ≤ hi then some (cp * 64 + (b.toNat - 0x80), rest) else none
  | [] => none

/-- Decode one UTF-8 scalar value from the front of the byte list, following
the standard UTF-8 well-formedness table (the one Rust `String::from_utf8`
validates against): no continuation-only lead bytes, no overlong forms, no
surrogates, nothing above U+10FFFF. Returns the code point and the remaining
bytes. -/
def utf8Step : List UInt8 → Option (Nat × List UInt8)
  | [] => none
  | b :: rest =>
    if b ≤ 0x7F then some (b.toNat, rest)
    else if 0xC2 ≤ b && b ≤ 0xDF then contRange 0x80 0xBF (b.toNat - 0xC0) rest
    else if b == 0xE0 then
      (contRange 0xA0 0xBF (b.toNat - 0xE0) rest).bind (fun p => contRange 0x80 0xBF p.1 p.2)
    else if (0xE1 ≤ b && b ≤ 0xEC) || (0xEE ≤ b && b ≤ 0xEF) then
      (contRange 0x80 0xBF (b.toNat - 0xE0) rest).bind (fun p => contRange 0x80 0xBF p.1 p.2)
    else if b == 0xED then
      (contRange 0x80 0x9F (b.toNat - 0xE0) rest).bind (fun p => contRange 0x80 0xBF p.1 p.2)
    else if b == 0xF0 then
      ((contRange 0x90 0xBF (b.toNat - 0xF0) rest).bind
        (fun p => contRange 0x80 0xBF p.1 p.2)).bind (fun p => contRange 0x80 0xBF p.1 p.2)
    else if 0xF1 ≤ b && b ≤ 0xF3 then
      ((contRange 0x80 0xBF (b.toNat - 0xF0) rest).bind
        (fun p => contRange 0x80 0xBF p.1 p.2)).bind (fun p => contRange 0x80 0xBF p.1 p.2)
    else if b == 0xF4 then
      ((contRange 0x80 0x8F (b.toNat - 0xF0) rest).bind
        (fun p => contRange 0x80 0xBF p.1 p.2)).bind (fun p => contRange 0x80 0xBF p.1 p.2)
    else none

/-- The decode loop behind `utf8Decode`. The first argument is fuel bounding
the number of decoded scalars; since every scalar consumes at least one byte
(`utf8Step_shrinks` below), fuel equal to the byte count never runs out. -/
def utf8DecodeAux : Nat → List UInt8 → Option (List Char)
  | _, [] => some []
  | 0, _ :: _ => none
  | fuel + 1, b :: rest =>
    match utf8Step (b :: rest) with
    | none => none
    | some (cp, rest2) => (utf8DecodeAux fuel rest2).map (fun cs => Char.ofNat cp :: cs)

/-- Model of Rust `String::from_utf8`: decodes the byte list as UTF-8,
or `none` when the bytes are not well-formed UTF-8. -/
def utf8Decode (l : List UInt8) : Option (List Char) :=
  utf8DecodeAux l.length l

/-- Model of `str::split_once("\r\n")` on the character list: splits at the
first occurrence of the CRLF pair. -/
def splitCrlf : List Char → Option (List Char × List Char)
  | [] => none
  | [_] => none
  | c1 :: c2 :: rest =>
    if c1 == '\r' && c2 == '\n' then some ([], rest)
    else (splitCrlf (c2 :: rest)).map (fun p => (c1 :: p.1, p.2))

/-- Model of `str::split_once("\r\n")` (main.rs 161). -/
def splitOnceCrlf (s : String) : Option (String × String) :=
  (splitCrlf s.data).map (fun p => (String.mk p.1, String.mk p.2))

/-- Whether the character list contains an adjacent CR LF pair. -/
def containsCrlf : List Char → Bool
  | c1 :: c2 :: rest => (c1 == '\r' && c2 == '\n') || containsCrlf (c2 :: rest)
  | _ => false

/-- Model of `process_tls_stream` (main.rs 149-184). `received` is the byte
sequence the client sent; the single `stream.read` into the 1026-byte buffer
is modelled as delivering its first `min (length received) 1026` bytes. The
result is the byte string written back to the stream, or `none` when the
handler returns without writing anything (peer closed, invalid UTF-8, or no
CRLF within the buffer). -/
def process_tls_stream (parseUrl : String → Option Url) (config : Config) (fs : FS)
    (received : List UInt8) : Option String :=
  if (received.take 1026).length = 0 then none
  else
    match utf8Decode (received.take 1026) with
    | none => none
    | some chars =>
      match splitOnceCrlf (String.mk chars) with
      | none => none
      | some (request_line, _) =>
        some (Response.render (process_request parseUrl request_line config fs))

/-- Model of `str::split_once(c)` on the character list: splits at the first
occurrence of the character. -/
def splitChar (c : Char) : List Char → Option (List Char × List Char)
  | [] => none
  | x :: rest =>
    if x == c then some ([], rest)
    else (splitChar c rest).map (fun p => (x :: p.1, p.2))

/-- The decoding procedure named by claim C9, written from its words: split
the rendered line at the first space, then split the remainder at CRLF, and
return the two pieces (the code text and the meta text). -/
def headerParse (s : String) : Option (String × String) :=
  match splitChar ' ' s.data with
  | none => none
  | some (code, rest) =>
    match splitCrlf rest with
    | none => none
    | some (m, _) => some (String.mk code, String.mk m)

/-- Written from the words of claim C3 (refinement comparison): the candidate
location is document_root + P with exactly one leading path separator
removed, using the same PathBuf push join the code uses. -/
def stripOneSlash (p : String) : String :=
  match p.data with
  | c :: rest => if c == '/' then String.mk rest else p
  | [] => p

/-- The claim C3 candidate: document_root joined with P after removing exactly
one leading separator. -/
def specCandidateOne (root p : String) : String :=
  pathPush root (stripOneSlash p)

/-! Concrete exemplars used by witnesses and counterexamples. Each `Url`
value records exactly what `Url::parse` yields on the given request line. -/

/-- `Url::parse ("gemini://example.com/")`: scheme "gemini", host present,
no explicit port, path "/". -/
def demoUrlRoot : Url :=
  { scheme := "gemini", cannotBeABase := false, port := none,
    hostStr := some "example.com", path := "/" }

/-- `Url::parse ("http://example.com/")`: wrong scheme. -/
def demoUrlHttp : Url :=
  { scheme := "http", cannotBeABase := false, port := none,
    hostStr := some "example.com", path := "/" }

/-- `Url::parse ("gemini://evil.com/")`: host outside the allow-list. -/
def demoUrlEvil : Url :=
  { scheme := "gemini", cannotBeABase := false, port := none,
    hostStr := some "evil.com", path := "/" }

/-- `Url::parse ("gemini:/x")`: a non-hierarchical URL with an absolute path
and no authority. The url crate reports scheme "gemini", `host_str()` None,
path "/x", and `cannot_be_a_base()` false, because the path begins with a
separator. -/
def demoUrlNoHost : Url :=
  { scheme := "gemini", cannotBeABase := false, port := none,
    hostStr := none, path := "/x" }

/-- `Url::parse ("gemini:opq")`: a cannot-be-a-base URL (the path does not
begin with a separator): `host_str()` None, `cannot_be_a_base()` true. -/
def demoUrlNoBase : Url :=
  { scheme := "gemini", cannotBeABase := true, port := none,
    hostStr := none, path := "opq" }

/-- `Url::parse ("gemini://example.com//secret.gmi")`: the path component is
"//secret.gmi", with two leading separators. -/
def demoUrlDoubleSlash : Url :=
  { scheme := "gemini", cannotBeABase := false, port := none,
    hostStr := some "example.com", path := "//secret.gmi" }

/-- `Url::parse ("gemini://example.com/dir")`: path "/dir". -/
def demoUrlDir : Url :=
  { scheme := "gemini", cannotBeABase := false, port := none,
    hostStr := some "example.com", path := "/dir" }

/-- `Url::parse ("gemini://example.com/missing.gmi")`: path "/missing.gmi". -/
def demoUrlMissing : Url :=
  { scheme := "gemini", cannotBeABase := false, port := none,
    hostStr := some "example.com", path := "/missing.gmi" }

/-- A url-crate oracle for the request lines the witnesses use. -/
def demoParse : String → Option Url := fun s =>
  if s == "gemini://example.com/" then some demoUrlRoot
  else if s == "http://example.com/" then some demoUrlHttp
  else if s == "gemini://evil.com/" then some demoUrlEvil
  else if s == "gemini:/x" then some demoUrlNoHost
  else if s == "gemini:opq" then some demoUrlNoBase
  else if s == "gemini://example.com//secret.gmi" then some demoUrlDoubleSlash
  else if s == "gemini://example.com/dir" then some demoUrlDir
  else if s == "gemini://example.com/missing.gmi" then some demoUrlMissing
  else none

/-- The demonstration configuration: port 1965, document root "/srv",
allow-list with the bind host appended as `main` does. -/
def demoConfig : Config :=
  { host := "0.0.0.0", port := 1965, root := "/srv",
    allowed_hosts := ["example.com", "0.0.0.0"] }

/-- The demonstration document root: `index.gmi` and `secret.gmi` are
readable text files; `dir` is a directory, so `Path::exists` is true for it
but `fs::read_to_string` fails on it. -/
def demoFs : FS :=
  { pathExists := fun p =>
      p == "/srv/index.gmi" || p == "/srv/secret.gmi" || p == "/srv/dir",
    readToString := fun p =>
      if p == "/srv/index.gmi" then some "# Hi"
      else if p == "/srv/secret.gmi" then some "top secret"
      else none }

/-- The 1027 bytes a client sends for a 1025-byte request line plus CRLF. -/
def oversizedRequest : List UInt8 :=
  List.replicate 1025 97 ++ [13, 10]

/-- A 1025-character (1025-byte) request line. -/
def request1025 : String :=
  String.mk (List.replicate 1025 'a')

/-! Helper lemmas shared by the claim theorems. -/

theorem data_append (s t : String) : (s ++ t).data = s.data ++ t.data := by
  cases s
  cases t
  rfl

theorem render_header_only (r : Response) (h : r.header.status ≠ Status.Success) :
    r.render = r.header.render := by
  obtain ⟨⟨st, m⟩, b⟩ := r
  cases st
  · exact absurd rfl h
  all_goals rfl

theorem parse_request_ok (parseUrl : String → Option Url) (request : String) (url : Url)
    (hbom : startsWithChar '\uFEFF' request = false)
    (hlen : utf8Len request ≤ 1024)
    (hparse : parseUrl request = some url) :
    parse_request parseUrl request = Except.ok url := by
  unfold parse_request
  rw [hbom]
  simp only [Bool.false_eq_true, if_false]
  rw [if_neg (by omega), hparse]

theorem process_request_resolves (parseUrl : String → Option Url) (request : String)
    (config : Config) (fs : FS) (url : Url)
    (hbom : startsWithChar '\uFEFF' request = false)
    (hlen : utf8Len request ≤ 1024)
    (hparse : parseUrl request = some url)
    (hscheme : url.scheme = "gemini")
    (hbase : url.cannotBeABase = false)
    (hport : ∀ p, url.port = some p → p = config.port)
    (hhost : ∀ h, url.hostStr = some h → config.allowed_hosts.contains h = true) :
    process_request parseUrl request config fs =
      if fs.pathExists (resolvePath config url.path) = false then
        { header := { status := Status.NotFound, meta := "Not Found" }, body := none }
      else
        match fs.readToString (resolvePath config url.path) with
        | some b => { header := { status := Status.Success, meta := "text/gemini" }, body := some b }
        | none =>
          { header := { status := Status.TemporaryFailure, meta := "Internal Server Error" },
            body := none } := by
  unfold process_request
  rw [parse_request_ok parseUrl request url hbom hlen hparse]
  have hc1 : (url.scheme != "gemini" || url.cannotBeABase
      || isSomeAnd (fun p => p != config.port) url.port) = false := by
    cases hp : url.port with
    | none => simp [hscheme, hbase, isSomeAnd]
    | some p =>
      have hpp := hport p hp
      simp [hscheme, hbase, isSomeAnd, hpp]
  have hc2 : isSomeAnd (fun h => !(config.allowed_hosts.contains h)) url.hostStr = false := by
    cases hh : url.hostStr with
    | none => simp [isSomeAnd]
    | some h =>
      have hch := hhost h hh
      simp at hch
      simp [isSomeAnd, hch]
  simp only []
  rw [hc1, hc2]
  simp only [Bool.false_eq_true, if_false, ResponseHeader.new]
  cases hex : fs.pathExists (resolvePath config url.path) <;> simp [hex]

theorem trimSlashes_eq_dropWhile (l : List Char) :
    trimSlashes l = l.dropWhile (fun c => c == '/') := by
  induction l with
  | nil => rfl
  | cons c rest ih =>
    by_cases hc : (c == '/') = true
    · simp [trimSlashes, List.dropWhile, hc, ih]
    · simp only [Bool.not_eq_true] at hc
      simp [trimSlashes, List.dropWhile, hc]

theorem splitChar_append (c : Char) (l₁ l₂ : List Char)
    (h : ∀ x ∈ l₁, (x == c) = false) :
    splitChar c (l₁ ++ c :: l₂) = some (l₁, l₂) := by
  induction l₁ with
  | nil => simp [splitChar]
  | cons x rest ih =>
    have hx : (x == c) = false := h x (List.mem_cons_self x rest)
    have hrest := ih (fun y hy => h y (List.mem_cons_of_mem x hy))
    simp [splitChar, hx, hrest]

theorem splitCrlf_cons_cons (c1 c2 : Char) (rest : List Char) :
    splitCrlf (c1 :: c2 :: rest) =
      if c1 == '\r' && c2 == '\n' then some ([], rest)
      else (splitCrlf (c2 :: rest)).map (fun p => (c1 :: p.1, p.2)) := by
  rw [splitCrlf.eq_def]

theorem splitCrlf_append (l : List Char) (h : containsCrlf l = false) :
    splitCrlf (l ++ ['\r', '\n']) = some (l, []) := by
  induction l with
  | nil => rfl
  | cons c rest ih =>
    cases rest with
    | nil =>
      have hrn : ('\r' == '\n') = false := by decide
      simp [splitCrlf, hrn]
    | cons c2 rest2 =>
      simp only [containsCrlf, Bool.or_eq_false_iff] at h
      have ih2 := ih h.2
      simp only [List.cons_append] at ih2 ⊢
      rw [splitCrlf_cons_cons, h.1]
      simp [ih2]

theorem splitCrlf_eq_none (l : List Char) (h : containsCrlf l = false) :
    splitCrlf l = none := by
  induction l with
  | nil => rfl
  | cons c rest ih =>
    cases rest with
    | nil => rfl
    | cons c2 rest2 =>
      simp only [containsCrlf, Bool.or_eq_false_iff] at h
      simp [splitCrlf, h.1, ih h.2]

theorem containsCrlf_of_no_lf (l : List Char) (h : '\n' ∉ l) : containsCrlf l = false := by
  induction l with
  | nil => rfl
  | cons c rest ih =>
    cases rest with
    | nil => rfl
    | cons c2 rest2 =>
      have h2 : '\n' ∉ c2 :: rest2 := fun hm => h (List.mem_cons_of_mem c hm)
      have hc2 : c2 ≠ '\n' := fun he => h2 (he ▸ List.mem_cons_self c2 rest2)
      simp [containsCrlf, ih h2, hc2]

theorem contRange_shrinks (lo hi : UInt8) (cp cp2 : Nat) (l rest : List UInt8)
    (h : contRange lo hi cp l = some (cp2, rest)) : rest.length < l.length := by
  cases l with
  | nil => simp [contRange] at h
  | cons b r =>
    by_cases hb : (lo ≤ b && b ≤ hi) = true
    · simp only [contRange, hb, if_true, Option.some.injEq, Prod.mk.injEq] at h
      rw [← h.2]
      simp
    · simp [contRange, hb] at h

theorem contRange_bind_shrinks (o : Option (Nat × List UInt8)) (m cpx : Nat)
    (rx : List UInt8)
    (ho : ∀ q rq, o = some (q, rq) → rq.length < m)
    (hb2 : o.bind (fun p => contRange 0x80 0xBF p.1 p.2) = some (cpx, rx)) :
    rx.length < m := by
  cases o with
  | none => simp at hb2
  | some p =>
    obtain ⟨q, rq⟩ := p
    simp at hb2
    have h1 := ho q rq rfl
    have h2 := contRange_shrinks _ _ _ _ _ _ hb2
    omega

theorem utf8Step_shrinks (l rest : List UInt8) (cp : Nat)
    (h : utf8Step l = some (cp, rest)) : rest.length < l.length := by
  cases l with
  | nil => simp [utf8Step] at h
  | cons b r =>
    have hcons : ∀ rest2 : List UInt8, rest2.length < r.length → rest2.length < (b :: r).length :=
      fun rest2 hr => by simp only [List.length_cons]; omega
    simp only [utf8Step] at h
    split at h
    · simp only [Option.some.injEq, Prod.mk.injEq] at h
      rw [← h.2]
      simp
    · split at h
      · exact hcons _ (contRange_shrinks _ _ _ _ _ _ h)
      · split at h
        · exact hcons _ (contRange_bind_shrinks _ _ _ _
            (fun q rq hq => contRange_shrinks _ _ _ _ _ _ hq) h)
        · split at h
          · exact hcons _ (contRange_bind_shrinks _ _ _ _
              (fun q rq hq => contRange_shrinks _ _ _ _ _ _ hq) h)
          · split at h
            · exact hcons _ (contRange_bind_shrinks _ _ _ _
                (fun q rq hq => contRange_shrinks _ _ _ _ _ _ hq) h)
            · split at h
              · exact hcons _ (contRange_bind_shrinks _ _ _ _
                  (fun q rq hq => contRange_bind_shrinks _ _ _ _
                    (fun q2 rq2 hq2 => contRange_shrinks _ _ _ _ _ _ hq2) hq) h)
              · split at h
                · exact hcons _ (contRange_bind_shrinks _ _ _ _
                    (fun q rq hq => contRange_bind_shrinks _ _ _ _
                      (fun q2 rq2 hq2 => contRange_shrinks _ _ _ _ _ _ hq2) hq) h)
                · split at h
                  · exact hcons _ (contRange_bind_shrinks _ _ _ _
                      (fun q rq hq => contRange_bind_shrinks _ _ _ _
                        (fun q2 rq2 hq2 => contRange_shrinks _ _ _ _ _ _ hq2) hq) h)
                  · simp at h

theorem utf8Step_ascii (b : UInt8) (rest : List UInt8) (hb : b ≤ 0x7F) :
    utf8Step (b :: rest) = some (b.toNat, rest) := by
  simp [utf8Step, hb]

theorem utf8DecodeAux_succ_cons (fuel : Nat) (b : UInt8) (rest : List UInt8) :
    utf8DecodeAux (fuel + 1) (b :: rest) =
      match utf8Step (b :: rest) with
      | none => none
      | some (cp, rest2) => (utf8DecodeAux fuel rest2).map (fun cs => Char.ofNat cp :: cs) := by
  rw [utf8DecodeAux.eq_def]

theorem utf8DecodeAux_ascii (l : List UInt8) :
    ∀ fuel, l.length ≤ fuel → (∀ b ∈ l, b ≤ 0x7F) →
      utf8DecodeAux fuel l = some (l.map (fun b => Char.ofNat b.toNat)) := by
  induction l with
  | nil =>
    intro fuel _ _
    cases fuel <;> rfl
  | cons b rest ih =>
    intro fuel hf h
    cases fuel with
    | zero => simp at hf
    | succ fuel =>
      have hb : b ≤ 0x7F := h b (List.mem_cons_self b rest)
      have hrest : ∀ x ∈ rest, x ≤ 0x7F := fun x hx => h x (List.mem_cons_of_mem b hx)
      have hf2 : rest.length ≤ fuel := by
        simp only [List.length_cons] at hf
        omega
      rw [utf8DecodeAux_succ_cons, utf8Step_ascii b rest hb]
      simp only [ih fuel hf2 hrest]
      simp

theorem utf8Decode_ascii (l : List UInt8) (h : ∀ b ∈ l, b ≤ 0x7F) :
    utf8Decode l = some (l.map (fun b => Char.ofNat b.toNat)) :=
  utf8DecodeAux_ascii l l.length (Nat.le_refl _) h

theorem utf8DecodeAux_fuel (n : Nat) :
    ∀ l : List UInt8, l.length ≤ n → ∀ f1 f2, l.length ≤ f1 → l.length ≤ f2 →
      utf8DecodeAux f1 l = utf8DecodeAux f2 l := by
  induction n with
  | zero =>
    intro l hl f1 f2 _ _
    cases l with
    | nil => cases f1 <;> cases f2 <;> rfl
    | cons b rest => simp at hl
  | succ n ih =>
    intro l hl f1 f2 h1 h2
    cases l with
    | nil => cases f1 <;> cases f2 <;> rfl
    | cons b rest =>
      cases f1 with
      | zero => simp at h1
      | succ f1 =>
        cases f2 with
        | zero => simp at h2
        | succ f2 =>
          rw [utf8DecodeAux_succ_cons, utf8DecodeAux_succ_cons]
          cases hs : utf8Step (b :: rest) with
          | none => rfl
          | some p =>
            obtain ⟨cp, rest2⟩ := p
            have hlt := utf8Step_shrinks _ _ _ hs
            simp only [List.length_cons] at hl h1 h2 hlt
            simp only []
            rw [ih rest2 (by omega) f1 f2 (by omega) (by omega)]

theorem utf8LenList_replicate_a (n : Nat) : utf8LenList (List.replicate n 'a') = n := by
  induction n with
  | zero => rfl
  | succ n ih =>
    rw [List.replicate_succ]
    have ha : ('a').utf8Size = 1 := by decide
    simp only [utf8LenList, ha, ih]
    omega

/-! The claim theorems. -/

/-- C6: for every request line whose first character is the byte-order-mark
codepoint U+FEFF, `parse_request` rejects it with the BOM reason and the
resulting response status is BadRequest, whose code is 59, regardless of the
rest of the line. -/
theorem C6_bom_rejected (parseUrl : String → Option Url) (request : String)
    (config : Config) (fs : FS)
    (h : startsWithChar '\uFEFF' request = true) :
    parse_request parseUrl request =
      Except.error "The request MUST NOT begin with a U+FEFF byte order mark." ∧
    (process_request parseUrl request config fs).header.status = Status.BadRequest ∧
    (process_request parseUrl request config fs).header.status.code = 59 := by
  unfold process_request parse_request
  simp [h, ResponseHeader.new, Status.code]

/-- C6 witness: a BOM-prefixed request line is rejected with status 59. -/
theorem C6_witness :
    parse_request demoParse "\uFEFFgemini://example.com/" =
      Except.error "The request MUST NOT begin with a U+FEFF byte order mark." ∧
    (process_request demoParse "\uFEFFgemini://example.com/" demoConfig demoFs).header.status
      = Status.BadRequest ∧
    (process_request demoParse "\uFEFFgemini://example.com/" demoConfig demoFs).header.status.code
      = 59 :=
  C6_bom_rejected demoParse "\uFEFFgemini://example.com/" demoConfig demoFs (by decide)

/-- C10: when the received bytes are not valid UTF-8 (the decode fails), the
connection handler writes nothing at all to the stream: no BadRequest, no
bytes, exactly as in the missing-CRLF case. -/
theorem C10_invalid_utf8_dropped (parseUrl : String → Option Url) (config : Config) (fs : FS)
    (received : List UInt8)
    (h : utf8Decode (received.take 1026) = none) :
    process_tls_stream parseUrl config fs received = none := by
  unfold process_tls_stream
  split
  · rfl
  · rw [h]

/-- C10 witness: a request starting with the invalid byte 0xFF, even with a
proper CRLF terminator, yields no response bytes at all. -/
theorem C10_witness :
    process_tls_stream demoParse demoConfig demoFs [0xFF, 13, 10] = none :=
  C10_invalid_utf8_dropped demoParse demoConfig demoFs [0xFF, 13, 10] (by decide)

/-- C1: every request line of at most 1024 bytes that parses to a URL passing
all authorization checks and whose path resolves to an existing readable file
is answered with status Success (code 20) and a body equal to the file
contents exactly. The BOM hypothesis is part of parseability: a line that
begins with U+FEFF cannot parse as an absolute URL, since a URL starts with
the ASCII letters of its scheme. -/
theorem C1_success_serves_file (parseUrl : String → Option Url) (request : String)
    (config : Config) (fs : FS) (url : Url) (contents : String)
    (hbom : startsWithChar '\uFEFF' request = false)
    (hlen : utf8Len request ≤ 1024)
    (hparse : parseUrl request = some url)
    (hscheme : url.scheme = "gemini")
    (hbase : url.cannotBeABase = false)
    (hport : ∀ p, url.port = some p → p = config.port)
    (hhost : ∀ h, url.hostStr = some h → config.allowed_hosts.contains h = true)
    (hexists : fs.pathExists (resolvePath config url.path) = true)
    (hread : fs.readToString (resolvePath config url.path) = some contents) :
    process_request parseUrl request config fs =
      { header := { status := Status.Success, meta := "text/gemini" }, body := some contents } ∧
    (process_request parseUrl request config fs).header.status.code = 20 := by
  have hr := process_request_resolves parseUrl request config fs url
    hbom hlen hparse hscheme hbase hport hhost
  constructor
  · rw [hr]
    simp [hexists, hread]
  · rw [hr]
    simp [hexists, hread, Status.code]

/-- C1 witness: gemini://example.com/ against the demonstration root serves
index.gmi with status 20 and body "# Hi". -/
theorem C1_witness :
    process_request demoParse "gemini://example.com/" demoConfig demoFs =
      { header := { status := Status.Success, meta := "text/gemini" }, body := some "# Hi" } ∧
    (process_request demoParse "gemini://example.com/" demoConfig demoFs).header.status.code
      = 20 :=
  C1_success_serves_file demoParse "gemini://example.com/" demoConfig demoFs demoUrlRoot "# Hi"
    (by decide) (by decide) (by decide) rfl rfl
    (fun p hp => nomatch hp)
    (fun h hh => by rw [← Option.some.inj hh]; decide)
    (by decide) (by decide)

/-- C2: a parsed URL whose scheme is not "gemini", or that carries an explicit
port different from the configured port, or whose host is present but not in
the allow-list, is answered with ProxyRequestRefused (53) and no body. -/
theorem C2_unauthorized_refused (parseUrl : String → Option Url) (request : String)
    (config : Config) (fs : FS) (url : Url)
    (hbom : startsWithChar '\uFEFF' request = false)
    (hlen : utf8Len request ≤ 1024)
    (hparse : parseUrl request = some url)
    (hbad : url.scheme ≠ "gemini"
      ∨ (∃ p, url.port = some p ∧ p ≠ config.port)
      ∨ (∃ h, url.hostStr = some h ∧ config.allowed_hosts.contains h = false)) :
    (process_request parseUrl request config fs).header.status = Status.ProxyRequestRefused ∧
    (process_request parseUrl request config fs).header.status.code = 53 ∧
    (process_request parseUrl request config fs).body = none := by
  unfold process_request
  rw [parse_request_ok parseUrl request url hbom hlen hparse]
  simp only []
  by_cases hc1 : (url.scheme != "gemini" || url.cannotBeABase
      || isSomeAnd (fun p => p != config.port) url.port) = true
  · rw [if_pos hc1]
    simp [ResponseHeader.new, Status.code]
  · have hc1f : (url.scheme != "gemini" || url.cannotBeABase
        || isSomeAnd (fun p => p != config.port) url.port) = false :=
      Bool.eq_false_iff.mpr hc1
    simp only [Bool.or_eq_false_iff] at hc1f
    obtain ⟨⟨hsch, _⟩, hprt⟩ := hc1f
    simp only [bne_eq_false_iff_eq] at hsch
    rcases hbad with hs | hp | hh
    · exact absurd hsch hs
    · obtain ⟨p, hp1, hp2⟩ := hp
      rw [hp1] at hprt
      simp [isSomeAnd] at hprt
      exact absurd hprt hp2
    · obtain ⟨hstr, hh1, hh2⟩ := hh
      rw [if_neg hc1]
      have hc2 : isSomeAnd (fun h => !(config.allowed_hosts.contains h)) url.hostStr = true := by
        rw [hh1]
        simp at hh2
        simp [isSomeAnd, hh2]
      rw [if_pos hc2]
      simp [ResponseHeader.new, Status.code]

/-- C2 witness: http://example.com/ is refused with 53 and no body. -/
theorem C2_witness :
    (process_request demoParse "http://example.com/" demoConfig demoFs).header.status
      = Status.ProxyRequestRefused ∧
    (process_request demoParse "http://example.com/" demoConfig demoFs).header.status.code
      = 53 ∧
    (process_request demoParse "http://example.com/" demoConfig demoFs).body = none :=
  C2_unauthorized_refused demoParse "http://example.com/" demoConfig demoFs demoUrlHttp
    (by decide) (by decide) (by decide) (Or.inl (by decide))

/-- C4 counterexample: "gemini:/x" parses to a URL with no host component at
all and cannot-be-a-base false. The claim says every such non-hierarchical URL
is refused with 53 before resolution, but process_request passes both
authorization checks on it and proceeds to resolution, answering 51 Not
Found. -/
theorem C4_counterexample :
    demoParse "gemini:/x" = some demoUrlNoHost ∧
    demoUrlNoHost.hostStr = none ∧
    (process_request demoParse "gemini:/x" demoConfig demoFs).header.status = Status.NotFound ∧
    (process_request demoParse "gemini:/x" demoConfig demoFs).header.status ≠
      Status.ProxyRequestRefused := by
  decide

/-- C4 amended: a parsed URL that is cannot-be-a-base (its path does not begin
with a separator, so it has no authority) is refused with ProxyRequestRefused
(53) and no body; a parsed URL with no host but an absolute path, such as
gemini:/x, is not refused and proceeds to resolution (see the
counterexample). -/
theorem C4_no_base_refused (parseUrl : String → Option Url) (request : String)
    (config : Config) (fs : FS) (url : Url)
    (hbom : startsWithChar '\uFEFF' request = false)
    (hlen : utf8Len request ≤ 1024)
    (hparse : parseUrl request = some url)
    (hnb : url.cannotBeABase = true) :
    (process_request parseUrl request config fs).header.status = Status.ProxyRequestRefused ∧
    (process_request parseUrl request config fs).body = none := by
  unfold process_request
  rw [parse_request_ok parseUrl request url hbom hlen hparse]
  simp only []
  have hc1 : (url.scheme != "gemini" || url.cannotBeABase
      || isSomeAnd (fun p => p != config.port) url.port) = true := by
    simp [hnb]
  rw [if_pos hc1]
  simp [ResponseHeader.new]

/-- C4 witness: the cannot-be-a-base request gemini:opq is refused with 53. -/
theorem C4_witness :
    (process_request demoParse "gemini:opq" demoConfig demoFs).header.status
      = Status.ProxyRequestRefused ∧
    (process_request demoParse "gemini:opq" demoConfig demoFs).body = none :=
  C4_no_base_refused demoParse "gemini:opq" demoConfig demoFs demoUrlNoBase
    (by decide) (by decide) (by decide) rfl

/-- C5 amended, part 1: any request line longer than 1024 bytes that reaches
process_request is answered with status BadRequest, code 59 - by the length
check, or by the BOM check when the line also begins with U+FEFF (both
rejections carry status 59). The counterexample shows such a line never
reaches process_request through the connection handler. -/
theorem C5_oversize_bad_request (parseUrl : String → Option Url) (request : String)
    (config : Config) (fs : FS)
    (hlen : utf8Len request > 1024) :
    (process_request parseUrl request config fs).header.status = Status.BadRequest ∧
    (process_request parseUrl request config fs).header.status.code = 59 := by
  unfold process_request parse_request
  by_cases hb : startsWithChar '\uFEFF' request = true
  · simp [hb, ResponseHeader.new, Status.code]
  · have hbf : startsWithChar '\uFEFF' request = false := Bool.eq_false_iff.mpr hb
    simp [hbf, hlen, ResponseHeader.new, Status.code]

/-- C5 witness for the amended theorem: a 1025-byte line given directly to
process_request is answered with status 59. -/
theorem C5_witness :
    (process_request demoParse request1025 demoConfig demoFs).header.status
      = Status.BadRequest ∧
    (process_request demoParse request1025 demoConfig demoFs).header.status.code = 59 :=
  C5_oversize_bad_request demoParse request1025 demoConfig demoFs
    (by unfold request1025 utf8Len
        rw [show (String.mk (List.replicate 1025 'a')).data = List.replicate 1025 'a' from rfl]
        rw [utf8LenList_replicate_a]
        omega)

/-- C5 counterexample: the client sends 1025 bytes of 'a' followed by CRLF,
1027 bytes in all. The read buffer holds only 1026 bytes, so the CRLF
terminator is never inside it, the handler finds no CRLF and returns without
writing: the connection carries no response at all, and in particular not the
advertised "59 URL is too long" line the claim promises. -/
theorem C5_counterexample :
    process_tls_stream demoParse demoConfig demoFs oversizedRequest = none ∧
    process_tls_stream demoParse demoConfig demoFs oversizedRequest ≠
      some "59 URL is too long. Maximum length is 1024 bytes.\r\n" := by
  have htake : oversizedRequest.take 1026 = List.replicate 1025 (97 : UInt8) ++ [13] := by
    unfold oversizedRequest
    have hlen : (List.replicate 1025 (97 : UInt8)).length ≤ 1026 := by
      rw [List.length_replicate]
      omega
    rw [List.take_append_eq_append_take, List.take_of_length_le hlen, List.length_replicate]
    norm_num
  have hdec : utf8Decode (List.replicate 1025 (97 : UInt8) ++ [13]) =
      some ((List.replicate 1025 (97 : UInt8) ++ [13]).map
        (fun b : UInt8 => Char.ofNat b.toNat)) := by
    apply utf8Decode_ascii
    intro b hb
    rcases List.mem_append.mp hb with hb1 | hb2
    · rw [List.eq_of_mem_replicate hb1]
      decide
    · rw [List.mem_singleton.mp hb2]
      decide
  have hmap : (List.replicate 1025 (97 : UInt8) ++ [13]).map
        (fun b : UInt8 => Char.ofNat b.toNat) =
      List.replicate 1025 'a' ++ ['\r'] := by
    rw [List.map_append, List.map_replicate]
    rfl
  have hsplit : splitCrlf (List.replicate 1025 'a' ++ ['\r']) = none := by
    apply splitCrlf_eq_none
    apply containsCrlf_of_no_lf
    intro hmem
    rcases List.mem_append.mp hmem with h1 | h2
    · exact absurd (List.eq_of_mem_replicate h1) (by decide)
    · exact absurd (List.mem_singleton.mp h2) (by decide)
  have h0 : process_tls_stream demoParse demoConfig demoFs oversizedRequest = none := by
    unfold process_tls_stream
    rw [htake]
    rw [if_neg (by
      rw [List.length_append, List.length_replicate]
      omega)]
    rw [hdec, hmap]
    simp only []
    unfold splitOnceCrlf
    rw [show (String.mk (List.replicate 1025 'a' ++ ['\r'])).data
        = List.replicate 1025 'a' ++ ['\r'] from rfl]
    rw [hsplit]
    rfl
  exact ⟨h0, by rw [h0]; simp⟩

/-- C3 amended: for the root or empty path the candidate location is the
document root joined with "index.gmi"; for any other path it is the document
root joined (by the PathBuf push) with the path after removing ALL leading
separators - not exactly one, as the counterexample shows. -/
theorem C3_all_separators_stripped (config : Config) (p : String) :
    resolvePath config p =
      pathPush config.root
        (if p == "/" || p == "" then "index.gmi"
         else String.mk (p.data.dropWhile (fun c => c == '/'))) := by
  unfold resolvePath trimStartMatchesSlash
  by_cases hp : (p == "/" || p == "") = true
  · rw [if_pos hp, if_pos hp]
    exact congrArg (pathPush config.root) (by decide)
  · rw [if_neg hp, if_neg hp]
    exact congrArg (pathPush config.root) (congrArg String.mk (trimSlashes_eq_dropWhile p.data))

/-- C3 counterexample: for the path "//secret.gmi" the code strips BOTH
leading separators and serves /srv/secret.gmi, while the formula of the claim
- exactly one separator removed, the remainder joined onto the root - yields
"/secret.gmi" (pushing an absolute component replaces the root): a different
location. The Success response shows the code reading the all-stripped
candidate. -/
theorem C3_counterexample :
    resolvePath demoConfig "//secret.gmi" = "/srv/secret.gmi" ∧
    specCandidateOne demoConfig.root "//secret.gmi" = "/secret.gmi" ∧
    resolvePath demoConfig "//secret.gmi" ≠ specCandidateOne demoConfig.root "//secret.gmi" ∧
    process_request demoParse "gemini://example.com//secret.gmi" demoConfig demoFs =
      { header := { status := Status.Success, meta := "text/gemini" },
        body := some "top secret" } := by
  decide

/-- C7 counterexample: "/srv/dir" is a directory. It exists, so the code
passes the exists() test, and read_to_string on it fails, so the code answers
40 Internal Server Error - while the claim places a directory in the NotFound
(51) case. -/
theorem C7_counterexample :
    demoFs.pathExists (resolvePath demoConfig "/dir") = true ∧
    demoFs.readToString (resolvePath demoConfig "/dir") = none ∧
    (process_request demoParse "gemini://example.com/dir" demoConfig demoFs).header.status =
      Status.TemporaryFailure ∧
    (process_request demoParse "gemini://example.com/dir" demoConfig demoFs).header.status ≠
      Status.NotFound := by
  decide

/-- C7 amended: for an authorized URL, when the candidate does not exist at
all the answer is 51 "Not Found" with no body; when the candidate exists
(whether a regular file or a directory) but cannot be read as UTF-8 text, the
answer is 40 "Internal Server Error" with no body. A directory or non-UTF-8
candidate therefore falls in the TemporaryFailure case, not the NotFound
case. -/
theorem C7_resolution_errors (parseUrl : String → Option Url) (request : String)
    (config : Config) (fs : FS) (url : Url)
    (hbom : startsWithChar '\uFEFF' request = false)
    (hlen : utf8Len request ≤ 1024)
    (hparse : parseUrl request = some url)
    (hscheme : url.scheme = "gemini")
    (hbase : url.cannotBeABase = false)
    (hport : ∀ p, url.port = some p → p = config.port)
    (hhost : ∀ h, url.hostStr = some h → config.allowed_hosts.contains h = true) :
    (fs.pathExists (resolvePath config url.path) = false →
      process_request parseUrl request config fs =
        { header := { status := Status.NotFound, meta := "Not Found" }, body := none }) ∧
    (fs.pathExists (resolvePath config url.path) = true →
      fs.readToString (resolvePath config url.path) = none →
      process_request parseUrl request config fs =
        { header := { status := Status.TemporaryFailure, meta := "Internal Server Error" },
          body := none }) := by
  have hr := process_request_resolves parseUrl request config fs url
    hbom hlen hparse hscheme hbase hport hhost
  constructor
  · intro hex
    rw [hr]
    simp [hex]
  · intro hex hread
    rw [hr]
    simp [hex, hread]

/-- C7 witness: gemini://example.com/missing.gmi resolves to a location that
does not exist and is answered 51 Not Found with no body. -/
theorem C7_witness :
    process_request demoParse "gemini://example.com/missing.gmi" demoConfig demoFs =
      { header := { status := Status.NotFound, meta := "Not Found" }, body := none } :=
  (C7_resolution_errors demoParse "gemini://example.com/missing.gmi" demoConfig demoFs
    demoUrlMissing (by decide) (by decide) (by decide) rfl rfl
    (fun p hp => nomatch hp)
    (fun h hh => by rw [← Option.some.inj hh]; decide)).1 (by decide)

/-- C8: every response process_request produces carries a body exactly when
its status is Success, and every non-Success response renders as the header
line alone. -/
theorem C8_body_iff_success (parseUrl : String → Option Url) (request : String)
    (config : Config) (fs : FS) :
    ((process_request parseUrl request config fs).body.isSome = true ↔
      (process_request parseUrl request config fs).header.status = Status.Success) ∧
    ((process_request parseUrl request config fs).header.status ≠ Status.Success →
      (process_request parseUrl request config fs).render =
        (process_request parseUrl request config fs).header.render) := by
  constructor
  · unfold process_request
    split
    · split
      · simp [ResponseHeader.new]
      · split
        · simp [ResponseHeader.new]
        · split
          · simp [ResponseHeader.new]
          · split <;> simp [ResponseHeader.new]
    · simp [ResponseHeader.new]
  · exact render_header_only _

/-- C8 witness: a refused request renders as the bare header line. -/
theorem C8_witness :
    (process_request demoParse "gemini://evil.com/" demoConfig demoFs).render =
      (process_request demoParse "gemini://evil.com/" demoConfig demoFs).header.render :=
  (C8_body_iff_success demoParse "gemini://evil.com/" demoConfig demoFs).2 (by decide)

theorem headerParse_render (code : Nat) (meta : String)
    (hc : ∀ x ∈ (toString code).data, (x == ' ') = false)
    (hm : containsCrlf meta.data = false) :
    headerParse (toString code ++ " " ++ meta ++ "\r\n") = some (toString code, meta) := by
  unfold headerParse
  have hd : (toString code ++ " " ++ meta ++ "\r\n").data
      = (toString code).data ++ (' ' :: (meta.data ++ ['\r', '\n'])) := by
    rw [data_append, data_append, data_append]
    simp
  rw [hd, splitChar_append ' ' _ _ hc]
  simp only []
  rw [splitCrlf_append meta.data hm]

/-- C9 amended: rendering a header and splitting the result at the first
space and then at the first CRLF recovers the two-digit code text and the
meta exactly, for every status and every meta that does not itself contain a
CRLF; a meta containing CRLF is truncated at its first CRLF by this decoding
(see the counterexample). -/
theorem C9_roundtrip_no_crlf (st : Status) (meta : String)
    (hm : containsCrlf meta.data = false) :
    headerParse (ResponseHeader.render { status := st, meta := meta }) =
      some (toString st.code, meta) ∧
    (toString st.code).length = 2 := by
  refine ⟨?_, by cases st <;> decide⟩
  unfold ResponseHeader.render
  exact headerParse_render st.code meta (by cases st <;> decide) hm

/-- C9 witness: the Success header with meta "text/gemini" round-trips. -/
theorem C9_witness :
    headerParse (ResponseHeader.render { status := Status.Success, meta := "text/gemini" }) =
      some ("20", "text/gemini") ∧
    (toString Status.Success.code).length = 2 :=
  C9_roundtrip_no_crlf Status.Success "text/gemini" (by decide)

/-- C9 counterexample: with meta "a\r\nb" (a meta string containing CRLF),
rendering and then splitting at the first space and the first CRLF returns
meta "a", not the original "a\r\nb": the round-trip fails for this meta. -/
theorem C9_counterexample :
    headerParse (ResponseHeader.render { status := Status.Success, meta := "a\r\nb" }) =
      some ("20", "a") ∧
    ("a" : String) ≠ "a\r\nb" := by
  decide

end ShootingStar
